import Mathlib

set_option maxHeartbeats 1000000

/-!
Shallow embedding of `src/main.py` (astrbot_plugin_endworld_img_api).

The core pipeline of the plugin `_process_and_send` is embedded as a pure
function over injected capabilities: an HTTP oracle (`get`), the PIL
re-encoding step (`reencode`), and a delivery-channel oracle (`sendOk`,
indexed by the run-order number of the `event.send` call, `true` meaning
the send succeeds and `false` meaning it raises).  Time is a discrete
clock advanced only by `asyncio.sleep`: the 1-unit retry backoff and the
15-unit deferred-cleanup delay.
-/

/-- Configuration surface read via `self.cfg.get(...)`, with the default values of
the source. -/
structure Config where
  compress_enable : Bool := true
  compress_threshold : Nat := 5
  compress_quality : Nat := 85
  send_retries : Nat := 3
  deriving Repr, DecidableEq

/-- JSON-like values traversed by `_extract_url_from_json`. -/
inductive Json where
  | null
  | bool (b : Bool)
  | num (n : Int)
  | str (s : String)
  | arr (xs : List Json)
  | obj (kvs : List (String × Json))
  deriving Repr

/-- The priority-ordered key list of `_extract_url_from_json` (line 42). -/
def priority_keys : List String :=
  ["original", "url_original", "url", "img", "image", "src", "link"]

/-- `p` is a leading run of `s` (over character lists). -/
def leadsList (p s : List Char) : Bool :=
  match p, s with
  | [], _ => true
  | _ :: _, [] => false
  | a :: ps, b :: ss => a == b && leadsList ps ss

/-- Python `s.startswith(p)`. -/
def py_starts_with (s p : String) : Bool := leadsList p.data s.data

/-- Python whitespace for `str.strip()`. -/
def py_space (c : Char) : Bool :=
  c == ' ' || c == '\t' || c == '\n' || c == '\r' || c == '\x0b' || c == '\x0c'

/-- Python `s.strip()`. -/
def py_strip (s : String) : String :=
  ⟨((s.data.dropWhile py_space).reverse.dropWhile py_space).reverse⟩

/-- ASCII lowering of one character, Python `str.lower()` on ASCII data. -/
def py_lower_char (c : Char) : Char :=
  if 65 ≤ c.toNat ∧ c.toNat ≤ 90 then Char.ofNat (c.toNat + 32) else c

/-- Python `s.lower()`. -/
def py_lower (s : String) : String := ⟨s.data.map py_lower_char⟩

/-- The priority scan of `_extract_url_from_json` (lines 42-44):
for each key in order, `key in data and isinstance(data[key], str) and
data[key].startswith("http")` returns `data[key]`. -/
def priority_scan (kvs : List (String × Json)) : List String → Option String
  | [] => none
  | k :: ks =>
    match kvs.lookup k with
    | some (Json.str s) => if py_starts_with s "http" then some s else priority_scan kvs ks
    | _ => priority_scan kvs ks

mutual

/-- Embedding of `SetuPlugin._extract_url_from_json` (lines 35-48). -/
def _extract_url_from_json : Json → String
  | Json.arr xs => extract_list xs
  | Json.obj kvs =>
    match priority_scan kvs priority_keys with
    | some s => s
    | none => extract_values kvs
  | _ => ""

/-- `for item in data: res = ...; if res: return res` (lines 37-39). -/
def extract_list : List Json → String
  | [] => ""
  | x :: xs =>
    let res := _extract_url_from_json x
    if res ≠ "" then res else extract_list xs

/-- `for value in data.values(): res = ...; if res: return res`
(lines 45-47). -/
def extract_values : List (String × Json) → String
  | [] => ""
  | (_, v) :: kvs =>
    let res := _extract_url_from_json v
    if res ≠ "" then res else extract_values kvs

end

mutual

/-- All string values stored under key `original` that start with `http`,
anywhere in the value, in traversal order (specification-side notion used
to state the `original`-preference claim). -/
def originals_in : Json → List String
  | Json.arr xs => originals_arr xs
  | Json.obj kvs => originals_obj kvs
  | _ => []

/-- `originals_in` over the elements of an array. -/
def originals_arr : List Json → List String
  | [] => []
  | x :: xs => originals_in x ++ originals_arr xs

/-- `originals_in` over the entries of an object. -/
def originals_obj : List (String × Json) → List String
  | [] => []
  | (k, v) :: kvs =>
    (if k = "original" then
        match v with
        | Json.str s => if py_starts_with s "http" then [s] else []
        | _ => []
      else []) ++ originals_in v ++ originals_obj kvs

end

/-- Embedding of `SetuPlugin._compress_image` (lines 50-69).  The PIL
decode / RGB-convert / JPEG re-encode pipeline is an injected capability
`reencode` receiving the configured quality; `Except.error` stands for any
exception inside the `try` block, which the source swallows by returning
the original bytes. -/
def _compress_image (cfg : Config)
    (reencode : Nat → List Nat → Except Unit (List Nat))
    (image_data : List Nat) : List Nat :=
  if cfg.compress_enable = false then image_data
  else if image_data.length ≤ cfg.compress_threshold * 1024 * 1024 then image_data
  else
    match reencode cfg.compress_quality image_data with
    | Except.ok out => out
    | Except.error _ => image_data

/-- File-extension sniffing from `_process_and_send` (lines 153-155):
`image_bytes[0:4]` equal to the four PNG magic bytes gives `png`, else
`image_bytes[0:3]` equal to the three GIF magic bytes gives `gif`, else `jpg`.  Python slicing of a
short byte string yields the short string, exactly like `List.take`. -/
def sniff_ext (image_bytes : List Nat) : String :=
  if image_bytes.take 4 = [0x89, 0x50, 0x4E, 0x47] then "png"
  else if image_bytes.take 3 = [0x47, 0x49, 0x46] then "gif"
  else "jpg"

/-- `p` occurs contiguously inside `s` (over character lists). -/
def occursIn (p : List Char) : List Char → Bool
  | [] => leadsList p []
  | c :: cs => leadsList p (c :: cs) || occursIn p cs

/-- Python `pat in s` for strings (used for content-type classification). -/
def hasSubstr (s pat : String) : Bool := occursIn pat.data s.data

/-- One HTTP response as observed by `_process_and_send`: the declared
content type, the post-redirect URL, and the three possible body readings
(`.json()` as `Option Json` where `none` is a parse error, `.text()`, and
`.read()`). -/
structure HttpResponse where
  content_type : String
  url : String
  json : Option Json
  text : String
  body : List Nat

/-- Result of one `session.get`: a network-level exception or a response. -/
inductive GetResult where
  | exn
  | ok (r : HttpResponse)

/-- Embedding of the fetch-and-classify part of one loop iteration of
`_process_and_send` (lines 121-148).  `none` means an exception reached the
endpoint-level `except` handler; `some (final_img_url, image_bytes)` is the
normal flow, with `image_bytes = none` when no bytes were produced.
In the JSON branch a failure of `.json()` or of the secondary get is
swallowed by the inner `except: pass` (lines 131-138); in the text branch a
secondary-get failure propagates to the endpoint-level handler. -/
def resolve_endpoint (get : String → GetResult) (api_url : String) :
    Option (String × Option (List Nat)) :=
  match get api_url with
  | GetResult.exn => none
  | GetResult.ok response =>
    let final0 := if response.url ≠ api_url then response.url else api_url
    if hasSubstr (py_lower response.content_type) "application/json" then
      match response.json with
      | none => some (final0, none)
      | some data =>
        let real_img_url := _extract_url_from_json data
        if real_img_url ≠ "" then
          match get real_img_url with
          | GetResult.exn => some (real_img_url, none)
          | GetResult.ok img_resp => some (real_img_url, some img_resp.body)
        else some (final0, none)
    else if hasSubstr (py_lower response.content_type) "image" then
      some (final0, some response.body)
    else
      if py_starts_with response.text "http" then
        match get (py_strip response.text) with
        | GetResult.exn => none
        | GetResult.ok img_resp => some (py_strip response.text, some img_resp.body)
      else some (final0, none)

/-- Observable events of one orchestration run.  `t` is the discrete clock
value (sleep units elapsed since the start of the run). -/
inductive Ev where
  | fetch (url : String)
  | createFile (name : String) (t : Nat)
  | sendImg (file : String) (ok : Bool) (t : Nat)
  | sendFallback (msg : String) (ok : Bool) (t : Nat)
  | scheduleDelete (file : String) (t : Nat)
  | genericNotice (t : Nat)
  deriving Repr, DecidableEq

/-- The terminal outcome of one orchestration run. -/
inductive Outcome where
  | delivered
  | fallbackLink
  | allFailed
  deriving Repr, DecidableEq

/-- State returned by the send-retry loop. -/
structure SendRes where
  success : Bool
  sendIdx : Nat
  clock : Nat
  events : List Ev
  deriving Repr, DecidableEq

/-- Trace and outcome of one orchestration run. -/
structure RunResult where
  trace : List Ev
  outcome : Outcome
  deriving Repr, DecidableEq

/-- The send-retry loop of `_process_and_send` (lines 171-183), called with
`max_retries + 1` remaining attempts.  `sendIdx` numbers the `event.send`
calls of the run in order; `clock` counts elapsed sleep units.  A failed
attempt with retries remaining sleeps 1 unit (line 180); the final failed
attempt does not sleep (line 183). -/
def retry_send (sendOk : Nat → Bool) (file : String) :
    Nat → Nat → Nat → SendRes
  | 0, si, c => ⟨false, si, c, []⟩
  | n + 1, si, c =>
    if sendOk si then ⟨true, si + 1, c, [Ev.sendImg file true c]⟩
    else
      match n with
      | 0 => ⟨false, si + 1, c, [Ev.sendImg file false c]⟩
      | m + 1 =>
        let r := retry_send sendOk file (m + 1) (si + 1) (c + 1)
        ⟨r.success, r.sendIdx, r.clock, Ev.sendImg file false c :: r.events⟩

/-- The fallback direct-link text of line 190:
`f"⚠️ 发送失败(重试{max_retries}次)，原图直链：\n{final_img_url}"`. -/
def fallback_text (max_retries : Nat) (final_img_url : String) : String :=
  "⚠️ 发送失败(重试" ++ toString max_retries ++ "次)，原图直链：\n" ++ final_img_url

/-- Embedding of the endpoint loop of `_process_and_send` (lines 111-205),
parameterised by the loop state: `fi` the fresh-file counter standing for
`uuid.uuid4()`, `si` the next `event.send` index, `c` the clock.
The `for ... else` of Python runs the `else` (the generic notice
`"图片获取失败喵"`, line 205) exactly when the loop finishes without
`break`; `break` on delivery success and `return` after a successful
fallback send skip it.  The `finally` block schedules the deferred
deletion of the persisted file on every exit path of an iteration that
created one. -/
def process_loop (cfg : Config)
    (reencode : Nat → List Nat → Except Unit (List Nat))
    (get : String → GetResult) (sendOk : Nat → Bool) :
    List String → Nat → Nat → Nat → RunResult
  | [], _, _, c => ⟨[Ev.genericNotice c], Outcome.allFailed⟩
  | api :: rest, fi, si, c =>
    let api_url := py_strip api
    if api_url = "" then process_loop cfg reencode get sendOk rest fi si c
    else
      match resolve_endpoint get api_url with
      | none =>
        let rr := process_loop cfg reencode get sendOk rest fi si c
        ⟨Ev.fetch api_url :: rr.trace, rr.outcome⟩
      | some (final_img_url, obytes) =>
        match obytes with
        | none =>
          let rr := process_loop cfg reencode get sendOk rest fi si c
          ⟨Ev.fetch api_url :: rr.trace, rr.outcome⟩
        | some bytes =>
          if bytes = [] then
            let rr := process_loop cfg reencode get sendOk rest fi si c
            ⟨Ev.fetch api_url :: rr.trace, rr.outcome⟩
          else
            let image_bytes := _compress_image cfg reencode bytes
            let file_ext := sniff_ext image_bytes
            let filename := toString fi ++ "." ++ file_ext
            let r := retry_send sendOk filename (cfg.send_retries + 1) si c
            if r.success then
              ⟨Ev.fetch api_url :: Ev.createFile filename c :: r.events ++
                 [Ev.scheduleDelete filename r.clock],
               Outcome.delivered⟩
            else
              let msg := fallback_text cfg.send_retries final_img_url
              if sendOk r.sendIdx then
                ⟨Ev.fetch api_url :: Ev.createFile filename c :: r.events ++
                   [Ev.sendFallback msg true r.clock,
                    Ev.scheduleDelete filename r.clock],
                 Outcome.fallbackLink⟩
              else
                let rr := process_loop cfg reencode get sendOk rest (fi + 1)
                    (r.sendIdx + 1) r.clock
                ⟨Ev.fetch api_url :: Ev.createFile filename c :: r.events ++
                   Ev.sendFallback msg false r.clock ::
                   Ev.scheduleDelete filename r.clock :: rr.trace,
                 rr.outcome⟩

/-- The whole `_process_and_send` run on a fresh state. -/
def _process_and_send (cfg : Config)
    (reencode : Nat → List Nat → Except Unit (List Nat))
    (get : String → GetResult) (sendOk : Nat → Bool)
    (api_list : List String) : RunResult :=
  process_loop cfg reencode get sendOk api_list 0 0 0

/-- An endpoint that produces no usable bytes: an endpoint-level exception,
a resolution without bytes, or an empty (falsy) byte payload
(`if not image_bytes: continue`, line 148). -/
def endpoint_misses (get : String → GetResult) (url : String) : Bool :=
  match resolve_endpoint get url with
  | none => true
  | some (_, none) => true
  | some (_, some b) => b.isEmpty

/-- The persisted file `f` exists at clock time `t`: it was created at or
before `t` and every deletion scheduled for it (which fires 15 units after
scheduling) has not yet fired. -/
def fileExistsAt (tr : List Ev) (f : String) (t : Nat) : Bool :=
  tr.any (fun e =>
    match e with
    | Ev.createFile g tc => g == f && decide (tc ≤ t)
    | _ => false) &&
  tr.all (fun e =>
    match e with
    | Ev.scheduleDelete g ts => !(g == f) || decide (t < ts + 15)
    | _ => true)

/-- Event classifiers used to count user-visible actions in a trace. -/
def isCreateEv : Ev → Bool
  | Ev.createFile _ _ => true
  | _ => false

/-- `Ev.sendImg` classifier. -/
def isSendImgEv : Ev → Bool
  | Ev.sendImg _ _ _ => true
  | _ => false

/-- `Ev.sendFallback` classifier. -/
def isFallbackEv : Ev → Bool
  | Ev.sendFallback _ _ _ => true
  | _ => false

/-- `Ev.genericNotice` classifier. -/
def isGenericEv : Ev → Bool
  | Ev.genericNotice _ => true
  | _ => false

/-- The persisted file name generated for the `fi`-th created file of a run
(standing for `f"{uuid.uuid4()}.{file_ext}"`, line 157). -/
def run_filename (cfg : Config)
    (reencode : Nat → List Nat → Except Unit (List Nat))
    (fi : Nat) (bytes : List Nat) : String :=
  toString fi ++ "." ++ sniff_ext (_compress_image cfg reencode bytes)

/-- A demonstration HTTP oracle: endpoint `A` serves three bytes with an
image content type; every other URL raises. -/
def demo_get : String → GetResult := fun u =>
  if u = "A" then GetResult.ok ⟨"image/jpeg", "A", none, "", [1, 2, 3]⟩
  else GetResult.exn

/-- A demonstration HTTP oracle for a three-endpoint list: `A` raises, `B`
answers plain text that is not a URL (no bytes), `C` serves one byte with
an image content type. -/
def demo_get3 : String → GetResult := fun u =>
  if u = "C" then GetResult.ok ⟨"image/png", "C", none, "", [5]⟩
  else if u = "B" then GetResult.ok ⟨"text/plain", "B", none, "nope", []⟩
  else GetResult.exn

/-- A demonstration re-encoder that always fails (decode error). -/
def demo_reencode : Nat → List Nat → Except Unit (List Nat) :=
  fun _ _ => Except.error ()

/-- Claim C1, counterexample: it is not true that whenever a string under
key `original` starting with `http` is reachable anywhere in the input,
`_extract_url_from_json` returns that value in preference to values under
other keys regardless of nesting depth.  On
`{"url": "http://a", "nested": {"original": "http://b"}}` the top-level
priority scan returns the `url` value `"http://a"` before the recursion
ever reaches the nested `original`. -/
theorem extract_original_cex :
    ¬ (∀ (j : Json) (s : String), s ∈ originals_in j →
        _extract_url_from_json j = s) := by
  intro h
  have h1 : originals_in
      (Json.obj [("url", Json.str "http://a"),
                 ("nested", Json.obj [("original", Json.str "http://b")])]) =
      ["http://b"] := by
    simp [originals_in, originals_arr, originals_obj, py_starts_with, leadsList]
  have h2 : _extract_url_from_json
      (Json.obj [("url", Json.str "http://a"),
                 ("nested", Json.obj [("original", Json.str "http://b")])]) =
      "http://a" := by
    simp [_extract_url_from_json, extract_list, extract_values, priority_scan,
      priority_keys, List.lookup, py_starts_with, leadsList]
  have h3 := h _ "http://b" (by rw [h1]; exact List.mem_singleton.mpr rfl)
  rw [h2] at h3
  exact absurd h3 (by decide)

/-- Claim C1, amended: the `original`-key preference holds within a single
mapping: if the `original` key of a mapping holds a string starting with `http`,
`_extract_url_from_json` on that mapping returns it, whatever the other
keys hold; across nesting levels the first value found in traversal order
wins, so a shallower hit on another priority key pre-empts a deeper
`original` (as the counterexample shows). -/
theorem extract_original_same_mapping :
    ∀ (kvs : List (String × Json)) (s : String),
      kvs.lookup "original" = some (Json.str s) →
      py_starts_with s "http" = true →
      _extract_url_from_json (Json.obj kvs) = s := by
  intro kvs s h1 h2
  simp [_extract_url_from_json, priority_scan, priority_keys, h1, h2]

/-- Witness for `extract_original_same_mapping`. -/
theorem extract_original_same_mapping_witness :
    _extract_url_from_json
      (Json.obj [("x", Json.num 1), ("original", Json.str "http://z"),
                 ("url", Json.str "http://q")]) = "http://z" :=
  extract_original_same_mapping _ "http://z" rfl rfl

/-- Claim C6: `_compress_image` never raises (it is a total function on
bytes); it returns the input unchanged when compression is disabled, when
the input length is at most `compress_threshold * 1048576`, or when the
decode / re-encode capability fails; and a result different from the input
can only arise from an enabled configuration, an oversized input and a
successful re-encode, whose output is returned. -/
theorem compress_contract :
    ∀ (cfg : Config) (reencode : Nat → List Nat → Except Unit (List Nat))
      (data : List Nat),
      (cfg.compress_enable = false → _compress_image cfg reencode data = data) ∧
      (data.length ≤ cfg.compress_threshold * 1048576 →
        _compress_image cfg reencode data = data) ∧
      (reencode cfg.compress_quality data = Except.error () →
        _compress_image cfg reencode data = data) ∧
      (_compress_image cfg reencode data ≠ data →
        cfg.compress_enable = true ∧
        cfg.compress_threshold * 1048576 < data.length ∧
        reencode cfg.compress_quality data =
          Except.ok (_compress_image cfg reencode data)) := by
  intro cfg reencode data
  have hth : cfg.compress_threshold * 1024 * 1024 = cfg.compress_threshold * 1048576 := by
    ring
  unfold _compress_image
  rw [hth]
  refine ⟨fun h => by simp [h], fun h => ?_, fun h => ?_, fun h => ?_⟩
  · by_cases he : cfg.compress_enable = false <;> simp [he, h]
  · by_cases he : cfg.compress_enable = false
    · simp [he]
    · by_cases hl : data.length ≤ cfg.compress_threshold * 1048576 <;>
        simp [he, hl, h]
  · by_cases he : cfg.compress_enable = false
    · simp [he] at h
    · by_cases hl : data.length ≤ cfg.compress_threshold * 1048576
      · simp [he, hl] at h
      · refine ⟨by revert he; cases cfg.compress_enable <;> simp,
          by omega, ?_⟩
        simp [he, hl] at h ⊢
        cases hre : reencode cfg.compress_quality data with
        | ok out => simp [hre]
        | error e => simp [hre] at h

/-- Witness for `compress_contract`. -/
theorem compress_contract_witness :
    _compress_image {} (fun _ _ => Except.error ()) [1, 2, 3] = [1, 2, 3] ∧
    _compress_image { compress_enable := false } (fun _ _ => Except.ok [])
      [7] = [7] ∧
    _compress_image { compress_threshold := 0 } (fun _ _ => Except.error ())
      [9] = [9] :=
  ⟨(compress_contract {} (fun _ _ => Except.error ()) [1, 2, 3]).2.1 (by decide),
   (compress_contract { compress_enable := false } (fun _ _ => Except.ok [])
      [7]).1 rfl,
   (compress_contract { compress_threshold := 0 } (fun _ _ => Except.error ())
      [9]).2.2.1 rfl⟩

/-- Claim C8: the sniffed extension is `png` exactly when the bytes start
with `\x89PNG` (first four bytes `0x89 0x50 0x4E 0x47`), `gif` exactly when
they start with `GIF` (`0x47 0x49 0x46`), and `jpg` in every other case,
short inputs included (a short slice compares unequal to the magic). -/
theorem sniff_ext_spec :
    ∀ bs : List Nat,
      (sniff_ext bs = "png" ↔ bs.take 4 = [0x89, 0x50, 0x4E, 0x47]) ∧
      (sniff_ext bs = "gif" ↔ bs.take 3 = [0x47, 0x49, 0x46]) ∧
      (bs.take 4 ≠ [0x89, 0x50, 0x4E, 0x47] → bs.take 3 ≠ [0x47, 0x49, 0x46] →
        sniff_ext bs = "jpg") := by
  intro bs
  have hexcl : bs.take 4 = [0x89, 0x50, 0x4E, 0x47] →
      bs.take 3 ≠ [0x47, 0x49, 0x46] := by
    intro h4 h3
    have ht : (bs.take 4).take 3 = bs.take 3 := by
      rw [List.take_take]
      norm_num
    rw [h4] at ht
    rw [h3] at ht
    exact absurd ht (by decide)
  by_cases h1 : bs.take 4 = [0x89, 0x50, 0x4E, 0x47] <;>
    by_cases h2 : bs.take 3 = [0x47, 0x49, 0x46] <;>
    simp [sniff_ext, h1, h2]
  exact absurd h2 (hexcl h1)

/-- Witness for `sniff_ext_spec`. -/
theorem sniff_ext_spec_witness :
    sniff_ext [0x89, 0x50, 0x4E, 0x47, 0] = "png" ∧
    sniff_ext [0x47, 0x49, 0x46, 9] = "gif" ∧
    sniff_ext [0x89, 0x50] = "jpg" :=
  ⟨(sniff_ext_spec [0x89, 0x50, 0x4E, 0x47, 0]).1.mpr (by decide),
   (sniff_ext_spec [0x47, 0x49, 0x46, 9]).2.1.mpr (by decide),
   (sniff_ext_spec [0x89, 0x50]).2.2 (by decide) (by decide)⟩

/-- Claim C9: `_extract_url_from_json` is total over JSON-like values: a
value that is neither a list nor a mapping yields `""`; and a priority key
(here `url`) whose value fails the string-`http` test is skipped by the
priority scan yet its value is still visited by the fallback recursion over
the values of the mapping, so extraction of the mapping equals extraction of
that value (a nested URL inside it is still returned). -/
theorem extract_total_and_fallback :
    (∀ j : Json, (∀ xs, j ≠ Json.arr xs) → (∀ kvs, j ≠ Json.obj kvs) →
      _extract_url_from_json j = "") ∧
    (∀ inner : Json, (∀ s, inner = Json.str s → py_starts_with s "http" = false) →
      _extract_url_from_json (Json.obj [("url", inner)]) =
        _extract_url_from_json inner) := by
  constructor
  · intro j h1 h2
    cases j with
    | arr xs => exact absurd rfl (h1 xs)
    | obj kvs => exact absurd rfl (h2 kvs)
    | null => simp [_extract_url_from_json]
    | bool b => simp [_extract_url_from_json]
    | num n => simp [_extract_url_from_json]
    | str s => simp [_extract_url_from_json]
  · intro inner h
    have hval : extract_values [("url", inner)] = _extract_url_from_json inner := by
      by_cases hres : _extract_url_from_json inner = "" <;>
        simp [extract_values, hres]
    cases inner with
    | str s =>
      have hs := h s rfl
      simp [_extract_url_from_json, priority_scan, priority_keys, List.lookup,
        hs, hval]
    | null => simp [_extract_url_from_json, priority_scan, priority_keys,
        List.lookup, hval]
    | bool b => simp [_extract_url_from_json, priority_scan, priority_keys,
        List.lookup, hval]
    | num n => simp [_extract_url_from_json, priority_scan, priority_keys,
        List.lookup, hval]
    | arr xs => simp [_extract_url_from_json, priority_scan, priority_keys,
        List.lookup, hval]
    | obj kvs => simp [_extract_url_from_json, priority_scan, priority_keys,
        List.lookup, hval]

/-- Witness for `extract_total_and_fallback`. -/
theorem extract_total_and_fallback_witness :
    _extract_url_from_json Json.null = "" ∧
    _extract_url_from_json
      (Json.obj [("url", Json.obj [("original", Json.str "http://x")])]) =
    _extract_url_from_json (Json.obj [("original", Json.str "http://x")]) :=
  ⟨extract_total_and_fallback.1 Json.null (fun _ h => Json.noConfusion h)
      (fun _ h => Json.noConfusion h),
   extract_total_and_fallback.2 _ (fun _ h => Json.noConfusion h)⟩

/-- Every event produced by the retry loop is a send attempt on `file`. -/
theorem retry_send_events_shape (sendOk : Nat → Bool) (file : String) :
    ∀ n si c, ∀ e ∈ (retry_send sendOk file n si c).events,
      ∃ b t, e = Ev.sendImg file b t := by
  intro n
  induction n with
  | zero => intro si c e he; simp [retry_send] at he
  | succ n ih =>
    intro si c e he
    cases n with
    | zero =>
      by_cases h : sendOk si <;> simp [retry_send, h] at he
      · exact ⟨true, c, he⟩
      · exact ⟨false, c, he⟩
    | succ m =>
      by_cases h : sendOk si
      · simp [retry_send, h] at he
        exact ⟨true, c, he⟩
      · simp [retry_send, h] at he
        rcases he with he | he
        · exact ⟨false, c, he⟩
        · exact ih (si + 1) (c + 1) e he

/-- If no attempt succeeded, every event of the retry loop is a failed
send. -/
theorem retry_send_fail_events (sendOk : Nat → Bool) (file : String) :
    ∀ n si c, (retry_send sendOk file n si c).success = false →
      ∀ e ∈ (retry_send sendOk file n si c).events,
        ∃ t, e = Ev.sendImg file false t := by
  intro n
  induction n with
  | zero => intro si c _ e he; simp [retry_send] at he
  | succ n ih =>
    intro si c hs e he
    cases n with
    | zero =>
      by_cases h : sendOk si
      · simp [retry_send, h] at hs
      · simp [retry_send, h] at he
        exact ⟨c, he⟩
    | succ m =>
      by_cases h : sendOk si
      · simp [retry_send, h] at hs
      · simp [retry_send, h] at hs he
        rcases he with he | he
        · exact ⟨c, he⟩
        · exact ih (si + 1) (c + 1) hs e he

/-- The retry loop performs at most `n` attempts given fuel `n`. -/
theorem retry_send_length (sendOk : Nat → Bool) (file : String) :
    ∀ n si c, (retry_send sendOk file n si c).events.length ≤ n := by
  intro n
  induction n with
  | zero => intro si c; simp [retry_send]
  | succ n ih =>
    intro si c
    cases n with
    | zero => by_cases h : sendOk si <;> simp [retry_send, h]
    | succ m =>
      by_cases h : sendOk si
      · simp [retry_send, h]
      · simp [retry_send, h]
        exact ih (si + 1) (c + 1)

/-- If no attempt succeeded, all `n` attempts were made: a channel
exception consumes an attempt and never escapes the loop. -/
theorem retry_send_fail_length (sendOk : Nat → Bool) (file : String) :
    ∀ n si c, (retry_send sendOk file n si c).success = false →
      (retry_send sendOk file n si c).events.length = n := by
  intro n
  induction n with
  | zero => intro si c _; simp [retry_send]
  | succ n ih =>
    intro si c hs
    cases n with
    | zero =>
      by_cases h : sendOk si
      · simp [retry_send, h] at hs
      · simp [retry_send, h]
    | succ m =>
      by_cases h : sendOk si
      · simp [retry_send, h] at hs
      · simp [retry_send, h] at hs ⊢
        exact ih (si + 1) (c + 1) hs

/-- The `k`-th attempt of the retry loop sends at clock `c + k` (one sleep
unit between consecutive attempts) using send index `si + k`, and its
result is the answer of the oracle for that index. -/
theorem retry_send_get (sendOk : Nat → Bool) (file : String) :
    ∀ n si c k, k < (retry_send sendOk file n si c).events.length →
      (retry_send sendOk file n si c).events[k]? =
        some (Ev.sendImg file (sendOk (si + k)) (c + k)) := by
  intro n
  induction n with
  | zero => intro si c k hk; simp [retry_send] at hk
  | succ n ih =>
    intro si c k hk
    cases n with
    | zero =>
      by_cases h : sendOk si <;> simp [retry_send, h] at hk ⊢ <;>
        · have hk0 : k = 0 := by omega
          subst hk0
          simp [h]
    | succ m =>
      by_cases h : sendOk si
      · simp [retry_send, h] at hk ⊢
        have hk0 : k = 0 := by omega
        subst hk0
        simp [h]
      · cases k with
        | zero => simp [retry_send, h]
        | succ k =>
          simp [retry_send, h] at hk ⊢
          have hrec := ih (si + 1) (c + 1) k (by omega)
          have e1 : si + 1 + k = si + (k + 1) := by omega
          have e2 : c + 1 + k = c + (k + 1) := by omega
          rw [e1, e2] at hrec
          exact hrec

/-- A successful retry loop stops at the first successful attempt: the
oracle accepted attempt `k`, all earlier attempts failed, and the loop made
exactly `k + 1` attempts. -/
theorem retry_send_success_first (sendOk : Nat → Bool) (file : String) :
    ∀ n si c, (retry_send sendOk file n si c).success = true →
      ∃ k, (retry_send sendOk file n si c).events.length = k + 1 ∧
        sendOk (si + k) = true ∧ ∀ i, i < k → sendOk (si + i) = false := by
  intro n
  induction n with
  | zero => intro si c hs; simp [retry_send] at hs
  | succ n ih =>
    intro si c hs
    cases n with
    | zero =>
      by_cases h : sendOk si
      · exact ⟨0, by simp [retry_send, h], by simpa using h, fun i hi => by omega⟩
      · simp [retry_send, h] at hs
    | succ m =>
      by_cases h : sendOk si
      · exact ⟨0, by simp [retry_send, h], by simpa using h, fun i hi => by omega⟩
      · simp [retry_send, h] at hs
        obtain ⟨k, hlen, hok, hprev⟩ := ih (si + 1) (c + 1) hs
        refine ⟨k + 1, ?_, ?_, ?_⟩
        · simp [retry_send, h]
          omega
        · have e1 : si + (k + 1) = si + 1 + k := by omega
          rw [e1]
          exact hok
        · intro i hi
          cases i with
          | zero => simpa using h
          | succ i =>
            have hp := hprev i (by omega)
            have e2 : si + (i + 1) = si + 1 + i := by omega
            rw [e2]
            exact hp

/-- If the oracle rejects all `n + 1` attempts, the retry loop fails,
having consumed send indexes `si, ..., si + n` and slept `n` units. -/
theorem retry_send_all_fail (sendOk : Nat → Bool) (file : String) :
    ∀ n si c, (∀ j, j < n + 1 → sendOk (si + j) = false) →
      (retry_send sendOk file (n + 1) si c).success = false ∧
      (retry_send sendOk file (n + 1) si c).sendIdx = si + (n + 1) ∧
      (retry_send sendOk file (n + 1) si c).clock = c + n := by
  intro n
  induction n with
  | zero =>
    intro si c hall
    have h0 := hall 0 (by omega)
    simp only [Nat.add_zero] at h0
    simp [retry_send, h0]
  | succ m ih =>
    intro si c hall
    have h0 := hall 0 (by omega)
    simp only [Nat.add_zero] at h0
    obtain ⟨hs, hsi, hc⟩ := ih (si + 1) (c + 1) (fun j hj => by
      have hj1 := hall (j + 1) (by omega)
      have e1 : si + (j + 1) = si + 1 + j := by omega
      rw [e1] at hj1
      exact hj1)
    simp [retry_send, h0, hs, hsi, hc]
    constructor <;> omega

/-- The final clock of the retry loop lies between `c` and `c + n` when given
fuel `n + 1` (at most `n` backoff sleeps of one unit each). -/
theorem retry_send_clock (sendOk : Nat → Bool) (file : String) :
    ∀ n si c, c ≤ (retry_send sendOk file (n + 1) si c).clock ∧
      (retry_send sendOk file (n + 1) si c).clock ≤ c + n := by
  intro n
  induction n with
  | zero =>
    intro si c
    by_cases h : sendOk si <;> simp [retry_send, h]
  | succ m ih =>
    intro si c
    by_cases h : sendOk si
    · simp [retry_send, h]
    · have hm := ih (si + 1) (c + 1)
      simp [retry_send, h]
      omega

/-- A first-attempt success makes exactly one attempt, no sleeps. -/
theorem retry_send_first_true (sendOk : Nat → Bool) (file : String) :
    ∀ n si c, sendOk si = true →
      retry_send sendOk file (n + 1) si c =
        ⟨true, si + 1, c, [Ev.sendImg file true c]⟩ := by
  intro n si c h
  cases n <;> simp [retry_send, h]

example :
    (process_loop {} (fun _ _ => Except.error ())
      (fun u => if u = "A" then
          GetResult.ok ⟨"image/jpeg", "A", none, "", [1, 2, 3]⟩
        else GetResult.exn)
      (fun _ => false) ["A"] 0 0 0) =
    ⟨[Ev.fetch "A", Ev.createFile "0.jpg" 0,
      Ev.sendImg "0.jpg" false 0, Ev.sendImg "0.jpg" false 1,
      Ev.sendImg "0.jpg" false 2, Ev.sendImg "0.jpg" false 3,
      Ev.sendFallback (fallback_text 3 "A") false 3,
      Ev.scheduleDelete "0.jpg" 3, Ev.genericNotice 3],
     Outcome.allFailed⟩ := by decide

/-- A blank (whitespace-only) entry is skipped with no observable event. -/
theorem process_loop_blank (cfg : Config)
    (reencode : Nat → List Nat → Except Unit (List Nat))
    (get : String → GetResult) (sendOk : Nat → Bool)
    (api : String) (rest : List String) (fi si c : Nat)
    (h : py_strip api = "") :
    process_loop cfg reencode get sendOk (api :: rest) fi si c =
      process_loop cfg reencode get sendOk rest fi si c := by
  simp [process_loop, h]

/-- An endpoint that produces no usable bytes adds one fetch event and the
run continues with the remaining endpoints, state unchanged. -/
theorem process_loop_miss (cfg : Config)
    (reencode : Nat → List Nat → Except Unit (List Nat))
    (get : String → GetResult) (sendOk : Nat → Bool)
    (api : String) (rest : List String) (fi si c : Nat)
    (h1 : py_strip api ≠ "")
    (h2 : endpoint_misses get (py_strip api) = true) :
    process_loop cfg reencode get sendOk (api :: rest) fi si c =
      ⟨Ev.fetch (py_strip api) ::
         (process_loop cfg reencode get sendOk rest fi si c).trace,
       (process_loop cfg reencode get sendOk rest fi si c).outcome⟩ := by
  unfold endpoint_misses at h2
  cases hres : resolve_endpoint get (py_strip api) with
  | none => simp [process_loop, h1, hres]
  | some p =>
    rw [hres] at h2
    obtain ⟨u, ob⟩ := p
    cases ob with
    | none => simp [process_loop, h1, hres]
    | some b =>
      simp only [List.isEmpty_iff] at h2
      subst h2
      simp [process_loop, h1, hres]

/-- An endpoint resolving non-empty bytes whose delivery retry loop
succeeds ends the run: outcome Delivered, cleanup scheduled, loop stopped
by `break`. -/
theorem process_loop_hit_success (cfg : Config)
    (reencode : Nat → List Nat → Except Unit (List Nat))
    (get : String → GetResult) (sendOk : Nat → Bool)
    (api : String) (rest : List String) (fi si c : Nat)
    (u : String) (bytes : List Nat)
    (h1 : py_strip api ≠ "")
    (hres : resolve_endpoint get (py_strip api) = some (u, some bytes))
    (hb : bytes ≠ [])
    (hs : (retry_send sendOk (run_filename cfg reencode fi bytes)
            (cfg.send_retries + 1) si c).success = true) :
    process_loop cfg reencode get sendOk (api :: rest) fi si c =
      ⟨Ev.fetch (py_strip api) ::
         Ev.createFile (run_filename cfg reencode fi bytes) c ::
         (retry_send sendOk (run_filename cfg reencode fi bytes)
            (cfg.send_retries + 1) si c).events ++
         [Ev.scheduleDelete (run_filename cfg reencode fi bytes)
            (retry_send sendOk (run_filename cfg reencode fi bytes)
              (cfg.send_retries + 1) si c).clock],
       Outcome.delivered⟩ := by
  unfold run_filename at hs ⊢
  simp [process_loop, h1, hres, hb, hs]

/-- An endpoint resolving non-empty bytes whose delivery retry loop is
exhausted, followed by a successful fallback-link send, ends the run with
outcome DeliveredViaFallbackLink (`return`). -/
theorem process_loop_hit_fallback (cfg : Config)
    (reencode : Nat → List Nat → Except Unit (List Nat))
    (get : String → GetResult) (sendOk : Nat → Bool)
    (api : String) (rest : List String) (fi si c : Nat)
    (u : String) (bytes : List Nat)
    (h1 : py_strip api ≠ "")
    (hres : resolve_endpoint get (py_strip api) = some (u, some bytes))
    (hb : bytes ≠ [])
    (hs : (retry_send sendOk (run_filename cfg reencode fi bytes)
            (cfg.send_retries + 1) si c).success = false)
    (hfb : sendOk (retry_send sendOk (run_filename cfg reencode fi bytes)
            (cfg.send_retries + 1) si c).sendIdx = true) :
    process_loop cfg reencode get sendOk (api :: rest) fi si c =
      ⟨Ev.fetch (py_strip api) ::
         Ev.createFile (run_filename cfg reencode fi bytes) c ::
         (retry_send sendOk (run_filename cfg reencode fi bytes)
            (cfg.send_retries + 1) si c).events ++
         [Ev.sendFallback (fallback_text cfg.send_retries u) true
            (retry_send sendOk (run_filename cfg reencode fi bytes)
              (cfg.send_retries + 1) si c).clock,
          Ev.scheduleDelete (run_filename cfg reencode fi bytes)
            (retry_send sendOk (run_filename cfg reencode fi bytes)
              (cfg.send_retries + 1) si c).clock],
       Outcome.fallbackLink⟩ := by
  unfold run_filename at hs hfb ⊢
  simp [process_loop, h1, hres, hb, hs, hfb]

/-- An endpoint resolving non-empty bytes whose delivery retry loop is
exhausted and whose fallback-link send itself raises is caught by the
endpoint-level handler: the run continues with the next endpoint. -/
theorem process_loop_hit_fallback_fail (cfg : Config)
    (reencode : Nat → List Nat → Except Unit (List Nat))
    (get : String → GetResult) (sendOk : Nat → Bool)
    (api : String) (rest : List String) (fi si c : Nat)
    (u : String) (bytes : List Nat)
    (h1 : py_strip api ≠ "")
    (hres : resolve_endpoint get (py_strip api) = some (u, some bytes))
    (hb : bytes ≠ [])
    (hs : (retry_send sendOk (run_filename cfg reencode fi bytes)
            (cfg.send_retries + 1) si c).success = false)
    (hfb : sendOk (retry_send sendOk (run_filename cfg reencode fi bytes)
            (cfg.send_retries + 1) si c).sendIdx = false) :
    process_loop cfg reencode get sendOk (api :: rest) fi si c =
      ⟨Ev.fetch (py_strip api) ::
         Ev.createFile (run_filename cfg reencode fi bytes) c ::
         (retry_send sendOk (run_filename cfg reencode fi bytes)
            (cfg.send_retries + 1) si c).events ++
         Ev.sendFallback (fallback_text cfg.send_retries u) false
           (retry_send sendOk (run_filename cfg reencode fi bytes)
             (cfg.send_retries + 1) si c).clock ::
         Ev.scheduleDelete (run_filename cfg reencode fi bytes)
           (retry_send sendOk (run_filename cfg reencode fi bytes)
             (cfg.send_retries + 1) si c).clock ::
         (process_loop cfg reencode get sendOk rest (fi + 1)
            ((retry_send sendOk (run_filename cfg reencode fi bytes)
              (cfg.send_retries + 1) si c).sendIdx + 1)
            (retry_send sendOk (run_filename cfg reencode fi bytes)
              (cfg.send_retries + 1) si c).clock).trace,
       (process_loop cfg reencode get sendOk rest (fi + 1)
          ((retry_send sendOk (run_filename cfg reencode fi bytes)
            (cfg.send_retries + 1) si c).sendIdx + 1)
          (retry_send sendOk (run_filename cfg reencode fi bytes)
            (cfg.send_retries + 1) si c).clock).outcome⟩ := by
  unfold run_filename at hs hfb ⊢
  simp [process_loop, h1, hres, hb, hs, hfb]

/-- A list is a leading run of itself followed by anything. -/
theorem leadsList_append (p t : List Char) : leadsList p (p ++ t) = true := by
  induction p with
  | nil => simp [leadsList]
  | cons a ps ih => simp [leadsList, ih]

/-- A leading occurrence is an occurrence. -/
theorem occursIn_of_leads (p s : List Char) (h : leadsList p s = true) :
    occursIn p s = true := by
  cases s with
  | nil => simpa [occursIn] using h
  | cons c cs => simp [occursIn, h]

/-- Occurrence is stable under prepending. -/
theorem occursIn_append_left (p x y : List Char) (h : occursIn p y = true) :
    occursIn p (x ++ y) = true := by
  induction x with
  | nil => simpa using h
  | cons c cs ih => simp [occursIn, ih]

/-- A list occurs inside any sandwich around it. -/
theorem occursIn_sandwich (p x y : List Char) :
    occursIn p (x ++ p ++ y) = true := by
  have h2 : occursIn p (p ++ y) = true :=
    occursIn_of_leads _ _ (leadsList_append p y)
  have h3 := occursIn_append_left p x (p ++ y) h2
  simpa [List.append_assoc] using h3

/-- Character data of a string append. -/
theorem string_data_append (s t : String) : (s ++ t).data = s.data ++ t.data := by
  cases s
  cases t
  rfl

/-- The fallback message literally contains the configured retry count and
the resolved final URL. -/
theorem fallback_text_has (n : Nat) (u : String) :
    hasSubstr (fallback_text n u) (toString n) = true ∧
    hasSubstr (fallback_text n u) u = true := by
  unfold fallback_text hasSubstr
  constructor
  · rw [string_data_append, string_data_append, string_data_append]
    have h := occursIn_sandwich (toString n).data "⚠️ 发送失败(重试".data
      ("次)，原图直链：\n".data ++ u.data)
    simpa [List.append_assoc] using h
  · rw [string_data_append]
    have h := occursIn_sandwich u.data
      ("⚠️ 发送失败(重试" ++ toString n ++ "次)，原图直链：\n").data []
    simpa using h

/-- If every entry of the list is blank or produces no usable bytes, the
run emits exactly one generic failure notice, creates no persisted file,
and ends with outcome AllEndpointsFailed. -/
theorem process_loop_exhausted (cfg : Config)
    (reencode : Nat → List Nat → Except Unit (List Nat))
    (get : String → GetResult) (sendOk : Nat → Bool) :
    ∀ (apis : List String) (fi si c : Nat),
      (∀ api ∈ apis, py_strip api = "" ∨ endpoint_misses get (py_strip api) = true) →
      (process_loop cfg reencode get sendOk apis fi si c).trace.countP isGenericEv = 1 ∧
      (process_loop cfg reencode get sendOk apis fi si c).trace.countP isCreateEv = 0 ∧
      (process_loop cfg reencode get sendOk apis fi si c).outcome = Outcome.allFailed := by
  intro apis
  induction apis with
  | nil =>
    intro fi si c _
    simp [process_loop, List.countP_cons, List.countP_nil, isGenericEv, isCreateEv]
  | cons api rest ih =>
    intro fi si c hall
    by_cases hblank : py_strip api = ""
    · rw [process_loop_blank cfg reencode get sendOk api rest fi si c hblank]
      exact ih fi si c (fun a ha => hall a (List.mem_cons_of_mem api ha))
    · have hmiss : endpoint_misses get (py_strip api) = true := by
        rcases hall api (List.mem_cons_self api rest) with h | h
        · exact absurd h hblank
        · exact h
      rw [process_loop_miss cfg reencode get sendOk api rest fi si c hblank hmiss]
      obtain ⟨hg, hc2, ho⟩ := ih fi si c (fun a ha => hall a (List.mem_cons_of_mem api ha))
      refine ⟨?_, ?_, ho⟩ <;>
        simp [List.countP_cons, isGenericEv, isCreateEv, hg, hc2]

/-- If the generic failure notice appears in the trace of a run, then no
successful image delivery and no successful fallback-link send appears in
that trace: the notice is never emitted after either kind of success. -/
theorem process_loop_generic_clean (cfg : Config)
    (reencode : Nat → List Nat → Except Unit (List Nat))
    (get : String → GetResult) (sendOk : Nat → Bool) :
    ∀ (apis : List String) (fi si c tg : Nat) (file msg : String) (t1 t2 : Nat),
      Ev.genericNotice tg ∈ (process_loop cfg reencode get sendOk apis fi si c).trace →
      Ev.sendImg file true t1 ∉ (process_loop cfg reencode get sendOk apis fi si c).trace ∧
      Ev.sendFallback msg true t2 ∉ (process_loop cfg reencode get sendOk apis fi si c).trace := by
  intro apis
  induction apis with
  | nil =>
    intro fi si c tg file msg t1 t2 _
    constructor <;> simp [process_loop]
  | cons api rest ih =>
    intro fi si c tg file msg t1 t2 hg
    by_cases hblank : py_strip api = ""
    · rw [process_loop_blank cfg reencode get sendOk api rest fi si c hblank] at hg ⊢
      exact ih fi si c tg file msg t1 t2 hg
    · by_cases hmiss : endpoint_misses get (py_strip api) = true
      · rw [process_loop_miss cfg reencode get sendOk api rest fi si c hblank hmiss] at hg ⊢
        simp only [List.mem_cons] at hg
        rcases hg with hg | hg
        · exact absurd hg (by simp)
        · obtain ⟨ha, hb⟩ := ih fi si c tg file msg t1 t2 hg
          refine ⟨?_, ?_⟩ <;> simp [List.mem_cons, ha, hb]
      · rcases hshape : resolve_endpoint get (py_strip api) with _ | ⟨u, ob⟩
        · exact absurd (by unfold endpoint_misses; rw [hshape]) hmiss
        rcases ob with _ | b
        · exact absurd (by unfold endpoint_misses; rw [hshape]) hmiss
        have hb : b ≠ [] := by
          intro h0
          subst h0
          exact hmiss (by unfold endpoint_misses; rw [hshape]; rfl)
        by_cases hsucc : (retry_send sendOk (run_filename cfg reencode fi b)
            (cfg.send_retries + 1) si c).success = true
        · rw [process_loop_hit_success cfg reencode get sendOk api rest fi si c
            u b hblank hshape hb hsucc] at hg
          exfalso
          simp only [List.mem_cons, List.mem_append, List.mem_singleton,
            List.not_mem_nil, or_false] at hg
          rcases hg with (hg | hg | hg) | hg
          · exact Ev.noConfusion hg
          · exact Ev.noConfusion hg
          · obtain ⟨b2, t3, heq⟩ := retry_send_events_shape sendOk
              (run_filename cfg reencode fi b) (cfg.send_retries + 1) si c _ hg
            exact Ev.noConfusion heq
          · exact Ev.noConfusion hg
        · have hs : (retry_send sendOk (run_filename cfg reencode fi b)
              (cfg.send_retries + 1) si c).success = false := by
            revert hsucc
            cases (retry_send sendOk (run_filename cfg reencode fi b)
              (cfg.send_retries + 1) si c).success <;> simp
          by_cases hfb : sendOk (retry_send sendOk (run_filename cfg reencode fi b)
              (cfg.send_retries + 1) si c).sendIdx = true
          · rw [process_loop_hit_fallback cfg reencode get sendOk api rest fi si c
              u b hblank hshape hb hs hfb] at hg
            exfalso
            simp only [List.mem_cons, List.mem_append, List.mem_singleton,
              List.not_mem_nil, or_false] at hg
            rcases hg with (hg | hg | hg) | (hg | hg)
            · exact Ev.noConfusion hg
            · exact Ev.noConfusion hg
            · obtain ⟨b2, t3, heq⟩ := retry_send_events_shape sendOk
                (run_filename cfg reencode fi b) (cfg.send_retries + 1) si c _ hg
              exact Ev.noConfusion heq
            · exact Ev.noConfusion hg
            · exact Ev.noConfusion hg
          · have hfb2 : sendOk (retry_send sendOk (run_filename cfg reencode fi b)
                (cfg.send_retries + 1) si c).sendIdx = false := by
              revert hfb
              cases sendOk (retry_send sendOk (run_filename cfg reencode fi b)
                (cfg.send_retries + 1) si c).sendIdx <;> simp
            rw [process_loop_hit_fallback_fail cfg reencode get sendOk api rest fi si c
              u b hblank hshape hb hs hfb2] at hg ⊢
            simp only [List.mem_cons, List.mem_append] at hg
            have hgr : Ev.genericNotice tg ∈
                (process_loop cfg reencode get sendOk rest (fi + 1)
                  ((retry_send sendOk (run_filename cfg reencode fi b)
                    (cfg.send_retries + 1) si c).sendIdx + 1)
                  (retry_send sendOk (run_filename cfg reencode fi b)
                    (cfg.send_retries + 1) si c).clock).trace := by
              rcases hg with (hg | hg | hg) | (hg | hg | hg)
              · exact absurd hg (by simp)
              · exact absurd hg (by simp)
              · obtain ⟨b2, t3, heq⟩ := retry_send_events_shape sendOk
                  (run_filename cfg reencode fi b) (cfg.send_retries + 1) si c _ hg
                exact absurd heq (by simp)
              · exact absurd hg (by simp)
              · exact absurd hg (by simp)
              · exact hg
            obtain ⟨ha, hb2⟩ := ih (fi + 1)
              ((retry_send sendOk (run_filename cfg reencode fi b)
                (cfg.send_retries + 1) si c).sendIdx + 1)
              (retry_send sendOk (run_filename cfg reencode fi b)
                (cfg.send_retries + 1) si c).clock tg file msg t1 t2 hgr
            constructor
            · intro hmem
              simp only [List.mem_cons, List.mem_append] at hmem
              rcases hmem with (h | h | h) | (h | h | h)
              · exact Ev.noConfusion h
              · exact Ev.noConfusion h
              · obtain ⟨t3, heq⟩ := retry_send_fail_events sendOk
                  (run_filename cfg reencode fi b) (cfg.send_retries + 1) si c hs _ h
                injection heq with e1 e2 e3
                exact Bool.noConfusion e2
              · exact Ev.noConfusion h
              · exact Ev.noConfusion h
              · exact ha h
            · intro hmem
              simp only [List.mem_cons, List.mem_append] at hmem
              rcases hmem with (h | h | h) | (h | h | h)
              · exact Ev.noConfusion h
              · exact Ev.noConfusion h
              · obtain ⟨b2, t3, heq⟩ := retry_send_events_shape sendOk
                  (run_filename cfg reencode fi b) (cfg.send_retries + 1) si c _ h
                exact Ev.noConfusion heq
              · injection h with e1 e2 e3
                exact Bool.noConfusion e2
              · exact Ev.noConfusion h
              · exact hb2 h

/-- Claim C2: for every resolved image payload, delivery is attempted at
most `send_retries + 1` times in total; the `k`-th attempt (send index
`si + k`) happens at clock `c + k`, i.e. one 1-time-unit sleep separates
consecutive failed attempts; a delivery-channel exception counts as a
failed attempt and does not propagate (when no attempt succeeds the loop
still completes all `send_retries + 1` attempts); the loop stops at the
first successful attempt; and a successful retry loop also stops the outer
endpoint loop, ending the whole run with outcome Delivered and fetching no
endpoint beyond the current one. -/
theorem delivery_retry_contract :
    ∀ (cfg : Config) (sendOk : Nat → Bool) (file : String) (si c : Nat),
      (retry_send sendOk file (cfg.send_retries + 1) si c).events.length ≤
        cfg.send_retries + 1 ∧
      (∀ k, k < (retry_send sendOk file (cfg.send_retries + 1) si c).events.length →
        (retry_send sendOk file (cfg.send_retries + 1) si c).events[k]? =
          some (Ev.sendImg file (sendOk (si + k)) (c + k))) ∧
      ((retry_send sendOk file (cfg.send_retries + 1) si c).success = false →
        (retry_send sendOk file (cfg.send_retries + 1) si c).events.length =
          cfg.send_retries + 1) ∧
      ((retry_send sendOk file (cfg.send_retries + 1) si c).success = true →
        ∃ k, (retry_send sendOk file (cfg.send_retries + 1) si c).events.length = k + 1 ∧
          sendOk (si + k) = true ∧ ∀ i, i < k → sendOk (si + i) = false) ∧
      (∀ (reencode : Nat → List Nat → Except Unit (List Nat))
         (get : String → GetResult) (api : String) (rest : List String)
         (fi : Nat) (u : String) (bytes : List Nat),
        py_strip api ≠ "" →
        resolve_endpoint get (py_strip api) = some (u, some bytes) →
        bytes ≠ [] →
        (retry_send sendOk (run_filename cfg reencode fi bytes)
          (cfg.send_retries + 1) si c).success = true →
        (process_loop cfg reencode get sendOk (api :: rest) fi si c).outcome =
          Outcome.delivered ∧
        ∀ u2, Ev.fetch u2 ∈
            (process_loop cfg reencode get sendOk (api :: rest) fi si c).trace →
          u2 = py_strip api) := by
  intro cfg sendOk file si c
  refine ⟨retry_send_length sendOk file _ si c,
    fun k hk => retry_send_get sendOk file _ si c k hk,
    fun hs => retry_send_fail_length sendOk file _ si c hs,
    fun hs => retry_send_success_first sendOk file _ si c hs, ?_⟩
  intro reencode get api rest fi u bytes h1 hres hb hs
  rw [process_loop_hit_success cfg reencode get sendOk api rest fi si c u bytes
    h1 hres hb hs]
  refine ⟨rfl, ?_⟩
  intro u2 hmem
  rcases List.mem_append.mp hmem with h | h
  · rcases List.mem_cons.mp h with h | h
    · exact Ev.fetch.inj h
    · rcases List.mem_cons.mp h with h | h
      · exact Ev.noConfusion h
      · obtain ⟨b2, t3, heq⟩ := retry_send_events_shape sendOk
          (run_filename cfg reencode fi bytes) (cfg.send_retries + 1) si c _ h
        exact Ev.noConfusion heq
  · rcases List.mem_cons.mp h with h | h
    · exact Ev.noConfusion h
    · exact absurd h (List.not_mem_nil _)

/-- Witness for `delivery_retry_contract`. -/
theorem delivery_retry_contract_witness :
    (retry_send (fun _ => true) "0.jpg"
      (({} : Config).send_retries + 1) 0 0).events.length ≤
      ({} : Config).send_retries + 1 ∧
    (retry_send (fun _ => true) "0.jpg"
      (({} : Config).send_retries + 1) 0 0).events[0]? =
      some (Ev.sendImg "0.jpg" true 0) ∧
    (process_loop {} demo_reencode demo_get (fun _ => true) ["A"] 0 0 0).outcome =
      Outcome.delivered := by
  have h := delivery_retry_contract {} (fun _ => true) "0.jpg" 0 0
  refine ⟨h.1, ?_, ?_⟩
  · have hg := h.2.1 0 (by decide)
    simpa using hg
  · exact (h.2.2.2.2 demo_reencode demo_get "A" [] 0 "A" [1, 2, 3]
      (by decide) (by decide) (by decide) (by decide)).1

/-- The retry loop emits no event other than image-send attempts. -/
theorem retry_events_countP_zero (sendOk : Nat → Bool) (file : String)
    (n si c : Nat) (p : Ev → Bool)
    (hp : ∀ f2 b t, p (Ev.sendImg f2 b t) = false) :
    (retry_send sendOk file n si c).events.countP p = 0 := by
  rw [List.countP_eq_zero]
  intro e he
  obtain ⟨b, t, heq⟩ := retry_send_events_shape sendOk file n si c e he
  rw [heq, hp]
  simp

/-- Claim C3: when every one of the `send_retries + 1` delivery attempts
for a resolved payload fails and the fallback-link transmission itself
succeeds, the run sends exactly one plain-text fallback message; that
message contains the configured retry count and the resolved final URL;
and the run then terminates with outcome DeliveredViaFallbackLink, no
subsequent endpoint being fetched. -/
theorem fallback_on_exhaustion :
    ∀ (cfg : Config) (reencode : Nat → List Nat → Except Unit (List Nat))
      (get : String → GetResult) (sendOk : Nat → Bool)
      (api : String) (rest : List String) (fi si c : Nat)
      (u : String) (bytes : List Nat),
      py_strip api ≠ "" →
      resolve_endpoint get (py_strip api) = some (u, some bytes) →
      bytes ≠ [] →
      (∀ j, j < cfg.send_retries + 1 → sendOk (si + j) = false) →
      sendOk (si + (cfg.send_retries + 1)) = true →
      (process_loop cfg reencode get sendOk (api :: rest) fi si c).trace.countP
          isFallbackEv = 1 ∧
      Ev.sendFallback (fallback_text cfg.send_retries u) true
          (c + cfg.send_retries) ∈
        (process_loop cfg reencode get sendOk (api :: rest) fi si c).trace ∧
      hasSubstr (fallback_text cfg.send_retries u) (toString cfg.send_retries) = true ∧
      hasSubstr (fallback_text cfg.send_retries u) u = true ∧
      (process_loop cfg reencode get sendOk (api :: rest) fi si c).outcome =
        Outcome.fallbackLink ∧
      (∀ u2, Ev.fetch u2 ∈
          (process_loop cfg reencode get sendOk (api :: rest) fi si c).trace →
        u2 = py_strip api) := by
  intro cfg reencode get sendOk api rest fi si c u bytes h1 hres hb hall hok
  obtain ⟨hs, hsi, hc⟩ := retry_send_all_fail sendOk
    (run_filename cfg reencode fi bytes) cfg.send_retries si c hall
  have hfb : sendOk (retry_send sendOk (run_filename cfg reencode fi bytes)
      (cfg.send_retries + 1) si c).sendIdx = true := by
    rw [hsi]
    exact hok
  rw [process_loop_hit_fallback cfg reencode get sendOk api rest fi si c u bytes
    h1 hres hb hs hfb]
  have hz : (retry_send sendOk (run_filename cfg reencode fi bytes)
      (cfg.send_retries + 1) si c).events.countP isFallbackEv = 0 :=
    retry_events_countP_zero sendOk (run_filename cfg reencode fi bytes)
      (cfg.send_retries + 1) si c isFallbackEv (fun _ _ _ => rfl)
  refine ⟨?_, ?_, (fallback_text_has cfg.send_retries u).1,
    (fallback_text_has cfg.send_retries u).2, rfl, ?_⟩
  · rw [List.countP_append]
    simp [List.countP_cons, isFallbackEv, hz]
  · rw [hc]
    simp
  · intro u2 hmem
    rcases List.mem_append.mp hmem with h | h
    · rcases List.mem_cons.mp h with h | h
      · exact Ev.fetch.inj h
      · rcases List.mem_cons.mp h with h | h
        · exact Ev.noConfusion h
        · obtain ⟨b2, t3, heq⟩ := retry_send_events_shape sendOk
            (run_filename cfg reencode fi bytes) (cfg.send_retries + 1) si c _ h
          exact Ev.noConfusion heq
    · rcases List.mem_cons.mp h with h | h
      · exact Ev.noConfusion h
      · rcases List.mem_cons.mp h with h | h
        · exact Ev.noConfusion h
        · exact absurd h (List.not_mem_nil _)

/-- Witness for `fallback_on_exhaustion`. -/
theorem fallback_on_exhaustion_witness :
    (process_loop {} demo_reencode demo_get (fun i => decide (i = 4))
        ["A", "B"] 0 0 0).trace.countP isFallbackEv = 1 ∧
    (process_loop {} demo_reencode demo_get (fun i => decide (i = 4))
        ["A", "B"] 0 0 0).outcome = Outcome.fallbackLink := by
  have h := fallback_on_exhaustion {} demo_reencode demo_get
    (fun i => decide (i = 4)) "A" ["B"] 0 0 0 "A" [1, 2, 3]
    (by decide) (by decide) (by decide) (by decide) (by decide)
  exact ⟨h.1, h.2.2.2.2.1⟩

/-- Claim C4: endpoints are tried strictly in list order; blank entries are
skipped without any event; an endpoint-level exception or an empty resolved
payload moves on to the next endpoint; and in the `[A, B, C]` scenario
where `A` and `B` fail to resolve bytes and `C` resolves bytes and delivers
on its first attempt, exactly one delivery attempt occurs, no endpoint
after `C` is fetched, and the outcome is Delivered. -/
theorem endpoint_order_scenario :
    ∀ (cfg : Config) (reencode : Nat → List Nat → Except Unit (List Nat))
      (get : String → GetResult) (sendOk : Nat → Bool) (fi si c : Nat),
      (∀ api rest, py_strip api = "" →
        process_loop cfg reencode get sendOk (api :: rest) fi si c =
          process_loop cfg reencode get sendOk rest fi si c) ∧
      (∀ api rest, py_strip api ≠ "" →
        endpoint_misses get (py_strip api) = true →
        process_loop cfg reencode get sendOk (api :: rest) fi si c =
          ⟨Ev.fetch (py_strip api) ::
            (process_loop cfg reencode get sendOk rest fi si c).trace,
           (process_loop cfg reencode get sendOk rest fi si c).outcome⟩) ∧
      (∀ A B Cw rest u bytes,
        py_strip A ≠ "" → py_strip B ≠ "" → py_strip Cw ≠ "" →
        endpoint_misses get (py_strip A) = true →
        endpoint_misses get (py_strip B) = true →
        resolve_endpoint get (py_strip Cw) = some (u, some bytes) →
        bytes ≠ [] →
        sendOk si = true →
        (process_loop cfg reencode get sendOk (A :: B :: Cw :: rest) fi si c).trace.countP
            isSendImgEv = 1 ∧
        (process_loop cfg reencode get sendOk (A :: B :: Cw :: rest) fi si c).outcome =
          Outcome.delivered ∧
        (∀ u2, Ev.fetch u2 ∈
            (process_loop cfg reencode get sendOk (A :: B :: Cw :: rest) fi si c).trace →
          u2 = py_strip A ∨ u2 = py_strip B ∨ u2 = py_strip Cw)) := by
  intro cfg reencode get sendOk fi si c
  refine ⟨fun api rest h => process_loop_blank cfg reencode get sendOk api rest fi si c h,
    fun api rest h1 h2 => process_loop_miss cfg reencode get sendOk api rest fi si c h1 h2,
    ?_⟩
  intro A B Cw rest u bytes hA hB hC hmA hmB hres hb hsend
  have hsucc : (retry_send sendOk (run_filename cfg reencode fi bytes)
      (cfg.send_retries + 1) si c).success = true := by
    rw [retry_send_first_true sendOk (run_filename cfg reencode fi bytes)
      cfg.send_retries si c hsend]
  rw [process_loop_miss cfg reencode get sendOk A (B :: Cw :: rest) fi si c hA hmA,
    process_loop_miss cfg reencode get sendOk B (Cw :: rest) fi si c hB hmB,
    process_loop_hit_success cfg reencode get sendOk Cw rest fi si c u bytes
      hC hres hb hsucc,
    retry_send_first_true sendOk (run_filename cfg reencode fi bytes)
      cfg.send_retries si c hsend]
  refine ⟨?_, rfl, ?_⟩
  · simp [List.countP_append, List.countP_cons, isSendImgEv]
  · intro u2 hmem
    simp only [List.mem_cons] at hmem
    rcases hmem with h | h | h
    · exact Or.inl (Ev.fetch.inj h)
    · exact Or.inr (Or.inl (Ev.fetch.inj h))
    · rcases List.mem_append.mp h with h | h
      · rcases List.mem_cons.mp h with h | h
        · exact Or.inr (Or.inr (Ev.fetch.inj h))
        · rcases List.mem_cons.mp h with h | h
          · exact Ev.noConfusion h
          · rcases List.mem_cons.mp h with h | h
            · exact Ev.noConfusion h
            · exact absurd h (List.not_mem_nil _)
      · rcases List.mem_cons.mp h with h | h
        · exact Ev.noConfusion h
        · exact absurd h (List.not_mem_nil _)

/-- Witness for `endpoint_order_scenario`. -/
theorem endpoint_order_scenario_witness :
    (process_loop {} demo_reencode demo_get3 (fun _ => true)
        ["A", "B", "C", "D"] 0 0 0).trace.countP isSendImgEv = 1 ∧
    (process_loop {} demo_reencode demo_get3 (fun _ => true)
        ["A", "B", "C", "D"] 0 0 0).outcome = Outcome.delivered := by
  have h := (endpoint_order_scenario {} demo_reencode demo_get3
      (fun _ => true) 0 0 0).2.2 "A" "B" "C" ["D"] "C" [5]
    (by decide) (by decide) (by decide) (by decide) (by decide)
    (by decide) (by decide) rfl
  exact ⟨h.1, h.2.1⟩

/-- Claim C5: when the endpoint list is exhausted with no endpoint
producing usable bytes (the empty and all-blank cases included), the run
sends exactly one generic plain-text failure notice and creates no
persisted file, ending with outcome AllEndpointsFailed; and the generic
notice never appears in a trace together with a successful delivery or a
successfully sent fallback-link message. -/
theorem exhausted_generic_notice :
    (∀ (cfg : Config) (reencode : Nat → List Nat → Except Unit (List Nat))
       (get : String → GetResult) (sendOk : Nat → Bool)
       (apis : List String) (fi si c : Nat),
      (∀ api ∈ apis, py_strip api = "" ∨ endpoint_misses get (py_strip api) = true) →
      (process_loop cfg reencode get sendOk apis fi si c).trace.countP isGenericEv = 1 ∧
      (process_loop cfg reencode get sendOk apis fi si c).trace.countP isCreateEv = 0 ∧
      (process_loop cfg reencode get sendOk apis fi si c).outcome = Outcome.allFailed) ∧
    (∀ (cfg : Config) (reencode : Nat → List Nat → Except Unit (List Nat))
       (get : String → GetResult) (sendOk : Nat → Bool)
       (apis : List String) (fi si c tg : Nat) (file msg : String) (t1 t2 : Nat),
      Ev.genericNotice tg ∈ (process_loop cfg reencode get sendOk apis fi si c).trace →
      Ev.sendImg file true t1 ∉ (process_loop cfg reencode get sendOk apis fi si c).trace ∧
      Ev.sendFallback msg true t2 ∉ (process_loop cfg reencode get sendOk apis fi si c).trace) :=
  ⟨fun cfg reencode get sendOk apis fi si c h =>
      process_loop_exhausted cfg reencode get sendOk apis fi si c h,
   fun cfg reencode get sendOk apis fi si c tg file msg t1 t2 hg =>
      process_loop_generic_clean cfg reencode get sendOk apis fi si c tg file msg t1 t2 hg⟩

/-- Witness for `exhausted_generic_notice`. -/
theorem exhausted_generic_notice_witness :
    (process_loop {} demo_reencode demo_get (fun _ => true)
        ["", "  "] 0 0 0).trace.countP isGenericEv = 1 ∧
    (process_loop {} demo_reencode demo_get (fun _ => true)
        ["", "  "] 0 0 0).trace.countP isCreateEv = 0 ∧
    (process_loop {} demo_reencode demo_get (fun _ => true)
        ["", "  "] 0 0 0).outcome = Outcome.allFailed ∧
    Ev.sendImg "0.jpg" true 0 ∉
      (process_loop {} demo_reencode demo_get (fun _ => true) ["", "  "] 0 0 0).trace := by
  have h1 := exhausted_generic_notice.1 {} demo_reencode demo_get (fun _ => true)
    ["", "  "] 0 0 0 (by decide)
  have h2 := exhausted_generic_notice.2 {} demo_reencode demo_get (fun _ => true)
    ["", "  "] 0 0 0 0 "0.jpg" "m" 0 0 (by decide)
  exact ⟨h1.1, h1.2.1, h1.2.2, h2.1⟩

/-- Claim C10: if the fallback-link send itself raises, the endpoint-level
handler catches it and the run continues with the next endpoint (the
outcome is whatever the remaining endpoints produce), the failed fallback
attempt being recorded; in particular, when all remaining endpoints miss,
a generic failure notice follows the failed fallback attempt. -/
theorem fallback_send_failure_continues :
    ∀ (cfg : Config) (reencode : Nat → List Nat → Except Unit (List Nat))
      (get : String → GetResult) (sendOk : Nat → Bool)
      (api : String) (rest : List String) (fi si c : Nat)
      (u : String) (bytes : List Nat),
      py_strip api ≠ "" →
      resolve_endpoint get (py_strip api) = some (u, some bytes) →
      bytes ≠ [] →
      (retry_send sendOk (run_filename cfg reencode fi bytes)
        (cfg.send_retries + 1) si c).success = false →
      sendOk (retry_send sendOk (run_filename cfg reencode fi bytes)
        (cfg.send_retries + 1) si c).sendIdx = false →
      (process_loop cfg reencode get sendOk (api :: rest) fi si c).outcome =
        (process_loop cfg reencode get sendOk rest (fi + 1)
          ((retry_send sendOk (run_filename cfg reencode fi bytes)
            (cfg.send_retries + 1) si c).sendIdx + 1)
          (retry_send sendOk (run_filename cfg reencode fi bytes)
            (cfg.send_retries + 1) si c).clock).outcome ∧
      Ev.sendFallback (fallback_text cfg.send_retries u) false
          (retry_send sendOk (run_filename cfg reencode fi bytes)
            (cfg.send_retries + 1) si c).clock ∈
        (process_loop cfg reencode get sendOk (api :: rest) fi si c).trace ∧
      ((∀ api2 ∈ rest, py_strip api2 = "" ∨ endpoint_misses get (py_strip api2) = true) →
        (process_loop cfg reencode get sendOk (api :: rest) fi si c).outcome =
          Outcome.allFailed ∧
        (process_loop cfg reencode get sendOk (api :: rest) fi si c).trace.countP
          isGenericEv = 1) := by
  intro cfg reencode get sendOk api rest fi si c u bytes h1 hres hb hs hfb
  rw [process_loop_hit_fallback_fail cfg reencode get sendOk api rest fi si c
    u bytes h1 hres hb hs hfb]
  have hz : (retry_send sendOk (run_filename cfg reencode fi bytes)
      (cfg.send_retries + 1) si c).events.countP isGenericEv = 0 :=
    retry_events_countP_zero sendOk (run_filename cfg reencode fi bytes)
      (cfg.send_retries + 1) si c isGenericEv (fun _ _ _ => rfl)
  refine ⟨rfl, ?_, ?_⟩
  · exact List.mem_append_right _ (List.mem_cons_self _ _)
  · intro hrest
    obtain ⟨hg1, _, ho⟩ := process_loop_exhausted cfg reencode get sendOk rest
      (fi + 1)
      ((retry_send sendOk (run_filename cfg reencode fi bytes)
        (cfg.send_retries + 1) si c).sendIdx + 1)
      (retry_send sendOk (run_filename cfg reencode fi bytes)
        (cfg.send_retries + 1) si c).clock hrest
    refine ⟨ho, ?_⟩
    rw [List.countP_append]
    simp [List.countP_cons, isGenericEv, hz, hg1]

/-- Witness for `fallback_send_failure_continues`. -/
theorem fallback_send_failure_continues_witness :
    (process_loop {} demo_reencode demo_get (fun _ => false) ["A"] 0 0 0).outcome =
      Outcome.allFailed ∧
    Ev.sendFallback (fallback_text 3 "A") false 3 ∈
      (process_loop {} demo_reencode demo_get (fun _ => false) ["A"] 0 0 0).trace ∧
    (process_loop {} demo_reencode demo_get (fun _ => false) ["A"] 0 0 0).trace.countP
      isGenericEv = 1 := by
  have h := fallback_send_failure_continues {} demo_reencode demo_get
    (fun _ => false) "A" [] 0 0 0 "A" [1, 2, 3]
    (by decide) (by decide) (by decide) (by decide) (by decide)
  have h3 := h.2.2 (by simp)
  exact ⟨h3.1, h.2.1, h3.2⟩

/-- A scheduled deletion that has already fired means the file is gone. -/
theorem fileExistsAt_false_of_sched (tr : List Ev) (f : String) (ts t : Nat)
    (hmem : Ev.scheduleDelete f ts ∈ tr) (ht : ts + 15 ≤ t) :
    fileExistsAt tr f t = false := by
  unfold fileExistsAt
  cases h2 : tr.all (fun e =>
      match e with
      | Ev.scheduleDelete g ts2 => !(g == f) || decide (t < ts2 + 15)
      | _ => true) with
  | false => rw [Bool.and_false]
  | true =>
    exfalso
    have hall := List.all_eq_true.mp h2 _ hmem
    simp [show ¬(t < ts + 15) by omega] at hall

/-- Every persisted file created by a run has a deletion scheduled in the
same attempt, at most `send_retries` clock units after creation (the only
time that can pass between the write and the `finally` block is the retry
backoff). -/
theorem process_loop_create_sched (cfg : Config)
    (reencode : Nat → List Nat → Except Unit (List Nat))
    (get : String → GetResult) (sendOk : Nat → Bool) :
    ∀ (apis : List String) (fi si c : Nat) (f : String) (tc : Nat),
      Ev.createFile f tc ∈ (process_loop cfg reencode get sendOk apis fi si c).trace →
      ∃ ts, Ev.scheduleDelete f ts ∈
          (process_loop cfg reencode get sendOk apis fi si c).trace ∧
        tc ≤ ts ∧ ts ≤ tc + cfg.send_retries := by
  intro apis
  induction apis with
  | nil =>
    intro fi si c f tc hmem
    simp [process_loop] at hmem
  | cons api rest ih =>
    intro fi si c f tc hmem
    by_cases hblank : py_strip api = ""
    · rw [process_loop_blank cfg reencode get sendOk api rest fi si c hblank] at hmem ⊢
      exact ih fi si c f tc hmem
    · by_cases hmiss : endpoint_misses get (py_strip api) = true
      · rw [process_loop_miss cfg reencode get sendOk api rest fi si c hblank hmiss]
          at hmem ⊢
        rcases List.mem_cons.mp hmem with h | h
        · exact Ev.noConfusion h
        · obtain ⟨ts, hts, h1, h2⟩ := ih fi si c f tc h
          exact ⟨ts, List.mem_cons_of_mem _ hts, h1, h2⟩
      · rcases hshape : resolve_endpoint get (py_strip api) with _ | ⟨u, ob⟩
        · exact absurd (by unfold endpoint_misses; rw [hshape]) hmiss
        rcases ob with _ | b
        · exact absurd (by unfold endpoint_misses; rw [hshape]) hmiss
        have hbne : b ≠ [] := by
          intro h0
          subst h0
          exact hmiss (by unfold endpoint_misses; rw [hshape]; rfl)
        have hclock := retry_send_clock sendOk (run_filename cfg reencode fi b)
          cfg.send_retries si c
        by_cases hsucc : (retry_send sendOk (run_filename cfg reencode fi b)
            (cfg.send_retries + 1) si c).success = true
        · rw [process_loop_hit_success cfg reencode get sendOk api rest fi si c
            u b hblank hshape hbne hsucc] at hmem ⊢
          rcases List.mem_append.mp hmem with h | h
          · rcases List.mem_cons.mp h with h | h
            · exact Ev.noConfusion h
            · rcases List.mem_cons.mp h with h | h
              · injection h with e1 e2
                subst e1
                subst e2
                exact ⟨_, List.mem_append_right _ (List.mem_singleton.mpr rfl),
                  hclock.1, hclock.2⟩
              · obtain ⟨b2, t3, heq⟩ := retry_send_events_shape sendOk
                  (run_filename cfg reencode fi b) (cfg.send_retries + 1) si c _ h
                exact Ev.noConfusion heq
          · rcases List.mem_cons.mp h with h | h
            · exact Ev.noConfusion h
            · exact absurd h (List.not_mem_nil _)
        · have hs : (retry_send sendOk (run_filename cfg reencode fi b)
              (cfg.send_retries + 1) si c).success = false := by
            revert hsucc
            cases (retry_send sendOk (run_filename cfg reencode fi b)
              (cfg.send_retries + 1) si c).success <;> simp
          by_cases hfb : sendOk (retry_send sendOk (run_filename cfg reencode fi b)
              (cfg.send_retries + 1) si c).sendIdx = true
          · rw [process_loop_hit_fallback cfg reencode get sendOk api rest fi si c
              u b hblank hshape hbne hs hfb] at hmem ⊢
            rcases List.mem_append.mp hmem with h | h
            · rcases List.mem_cons.mp h with h | h
              · exact Ev.noConfusion h
              · rcases List.mem_cons.mp h with h | h
                · injection h with e1 e2
                  subst e1
                  subst e2
                  exact ⟨_, List.mem_append_right _
                    (List.mem_cons_of_mem _ (List.mem_singleton.mpr rfl)),
                    hclock.1, hclock.2⟩
                · obtain ⟨b2, t3, heq⟩ := retry_send_events_shape sendOk
                    (run_filename cfg reencode fi b) (cfg.send_retries + 1) si c _ h
                  exact Ev.noConfusion heq
            · rcases List.mem_cons.mp h with h | h
              · exact Ev.noConfusion h
              · rcases List.mem_cons.mp h with h | h
                · exact Ev.noConfusion h
                · exact absurd h (List.not_mem_nil _)
          · have hfb2 : sendOk (retry_send sendOk (run_filename cfg reencode fi b)
                (cfg.send_retries + 1) si c).sendIdx = false := by
              revert hfb
              cases sendOk (retry_send sendOk (run_filename cfg reencode fi b)
                (cfg.send_retries + 1) si c).sendIdx <;> simp
            rw [process_loop_hit_fallback_fail cfg reencode get sendOk api rest
              fi si c u b hblank hshape hbne hs hfb2] at hmem ⊢
            rcases List.mem_append.mp hmem with h | h
            · rcases List.mem_cons.mp h with h | h
              · exact Ev.noConfusion h
              · rcases List.mem_cons.mp h with h | h
                · injection h with e1 e2
                  subst e1
                  subst e2
                  exact ⟨_, List.mem_append_right _
                    (List.mem_cons_of_mem _ (List.mem_cons_self _ _)),
                    hclock.1, hclock.2⟩
                · obtain ⟨b2, t3, heq⟩ := retry_send_events_shape sendOk
                    (run_filename cfg reencode fi b) (cfg.send_retries + 1) si c _ h
                  exact Ev.noConfusion heq
            · rcases List.mem_cons.mp h with h | h
              · exact Ev.noConfusion h
              · rcases List.mem_cons.mp h with h | h
                · exact Ev.noConfusion h
                · obtain ⟨ts, hts, hl1, hl2⟩ := ih (fi + 1)
                    ((retry_send sendOk (run_filename cfg reencode fi b)
                      (cfg.send_retries + 1) si c).sendIdx + 1)
                    (retry_send sendOk (run_filename cfg reencode fi b)
                      (cfg.send_retries + 1) si c).clock f tc h
                  refine ⟨ts, ?_, hl1, hl2⟩
                  refine List.mem_append_right _ ?_
                  exact List.mem_cons_of_mem _ (List.mem_cons_of_mem _ hts)

/-- Claim C7, counterexample: it is not true that a persisted file no
longer exists 16 or more time-units after its creation regardless of
delivery outcome.  With the default configuration (3 retries) and a
delivery channel that always raises, the file is written at clock 0, the
retry loop sleeps 3 units, the deferred deletion is scheduled at clock 3
and fires at clock 18, so the file still exists at clock 16. -/
theorem cleanup_16_after_creation_cex :
    ¬ (∀ (cfg : Config) (reencode : Nat → List Nat → Except Unit (List Nat))
         (get : String → GetResult) (sendOk : Nat → Bool)
         (apis : List String) (fi si c : Nat) (f : String) (tc t : Nat),
        Ev.createFile f tc ∈ (process_loop cfg reencode get sendOk apis fi si c).trace →
        tc + 16 ≤ t →
        fileExistsAt (process_loop cfg reencode get sendOk apis fi si c).trace f t =
          false) := by
  intro h
  have hc := h {} demo_reencode demo_get (fun _ => false) ["A"] 0 0 0
    "0.jpg" 0 16 (by decide) (by decide)
  exact absurd hc (by decide)

/-- Claim C7, amended: a deferred deletion is scheduled on every exit path
of an attempt that persisted a file (delivery success, fallback-link send,
or exception after a failed fallback send), firing a fixed 15 time-units
after its scheduling; scheduling happens at most `send_retries` time-units
after the creation of the file (the retry backoff is the only time that passes
in between), so the file no longer exists `send_retries + 16` or more
time-units after creation — the original 16-unit bound holds only when no
retry sleep occurred. -/
theorem cleanup_always_fires :
    ∀ (cfg : Config) (reencode : Nat → List Nat → Except Unit (List Nat))
      (get : String → GetResult) (sendOk : Nat → Bool)
      (apis : List String) (fi si c : Nat) (f : String) (tc : Nat),
      Ev.createFile f tc ∈ (process_loop cfg reencode get sendOk apis fi si c).trace →
      ∃ ts, Ev.scheduleDelete f ts ∈
          (process_loop cfg reencode get sendOk apis fi si c).trace ∧
        tc ≤ ts ∧ ts ≤ tc + cfg.send_retries ∧
        ∀ t, tc + cfg.send_retries + 16 ≤ t →
          fileExistsAt (process_loop cfg reencode get sendOk apis fi si c).trace f t =
            false := by
  intro cfg reencode get sendOk apis fi si c f tc hmem
  obtain ⟨ts, hts, h1, h2⟩ :=
    process_loop_create_sched cfg reencode get sendOk apis fi si c f tc hmem
  refine ⟨ts, hts, h1, h2, ?_⟩
  intro t ht
  exact fileExistsAt_false_of_sched _ f ts t hts (by omega)

/-- Witness for `cleanup_always_fires`. -/
theorem cleanup_always_fires_witness :
    Ev.scheduleDelete "0.jpg" 3 ∈
      (process_loop {} demo_reencode demo_get (fun _ => false) ["A"] 0 0 0).trace ∧
    fileExistsAt
      (process_loop {} demo_reencode demo_get (fun _ => false) ["A"] 0 0 0).trace
      "0.jpg" 19 = false := by
  obtain ⟨ts, hts, h1, h2, h3⟩ := cleanup_always_fires {} demo_reencode demo_get
    (fun _ => false) ["A"] 0 0 0 "0.jpg" 0 (by decide)
  have hts3 : ts = 3 := by
    have htr : (process_loop {} demo_reencode demo_get (fun _ => false)
        ["A"] 0 0 0).trace =
      [Ev.fetch "A", Ev.createFile "0.jpg" 0,
       Ev.sendImg "0.jpg" false 0, Ev.sendImg "0.jpg" false 1,
       Ev.sendImg "0.jpg" false 2, Ev.sendImg "0.jpg" false 3,
       Ev.sendFallback (fallback_text 3 "A") false 3,
       Ev.scheduleDelete "0.jpg" 3, Ev.genericNotice 3] := by decide
    rw [htr] at hts
    simp at hts
    exact hts
  subst hts3
  exact ⟨hts, h3 19 (by decide)⟩
